import Mathlib

/-!
Verification of the investment-tracker backend (TypeScript sources under
`src/Backend`).  The spreadsheet row store hands back rows of untyped cells;
we embed a cell as an optional value that is either a string or a number
(numbers are modelled exactly by rationals, standing in for JS floats).
All service-layer functions (`sheetsService.ts`) and the summary route
handler (`routes/index.ts`) are translated into pure Lean functions below,
with explicit state passing for the row-position cache and the stored rows.
-/

namespace InvTracker

/-- Representation of a single spreadsheet cell value: either a string or a
number.  JS distinguishes the two at runtime; externally stored numbers read
back as numbers here (the store is assumed to preserve them). -/
inductive CellVal where
  | str (s : String)
  | num (q : ℚ)
  deriving Repr, DecidableEq

/-- Representation of a possibly-absent cell (`row[i]` may be `undefined`). -/
abbrev Cell := Option CellVal

/-- Representation of one raw row: a finite sequence of possibly-absent cells. -/
abbrev Row := List Cell

/-- JS truthiness of a cell value: a string is truthy iff nonempty, a number
is truthy iff nonzero (NaN never arises as a stored cell in this model). -/
def CellVal.truthy : CellVal → Bool
  | .str s => !(s == "")
  | .num q => !(q == 0)

/-- JS truthiness of a possibly-absent cell (`undefined` is falsy). -/
def Cell.truthy : Cell → Bool
  | none => false
  | some v => v.truthy

/-- Simple placeholder for the JS number-to-string conversion; no claim in
this development depends on the exact digits it produces (the program never
reads a number cell through a string coercion). -/
def numToStr (q : ℚ) : String := toString q

/-- Evaluation of the JS idiom `row[i] || dflt` for string-typed cells: a
falsy cell (absent, empty string, zero) yields the default. -/
def Cell.strOr (c : Cell) (dflt : String) : String :=
  match c with
  | none => dflt
  | some v => if v.truthy then (match v with | .str s => s | .num q => numToStr q) else dflt

/-- Indexing `row[i]`: out-of-range access yields `undefined`. -/
def Row.cell (r : Row) (i : Nat) : Cell := r.getD i none

/-- Numeric value of a digit string read left to right. -/
def digitsToNat (l : List Char) : Nat :=
  l.foldl (fun acc c => acc * 10 + (c.toNat - 48)) 0

/-- Model of JS `parseFloat` on a string, restricted to the grammar
`[+|-] digits [. digits]` actually produced and consumed by this program
(no exponents, infinities or leading whitespace occur in its data).
`none` models the NaN result for input with no leading numeric prefix. -/
def parseFloatStr (s : String) : Option ℚ :=
  let l := s.toList
  let signed : Bool × List Char :=
    match l with
    | '-' :: rest => (true, rest)
    | '+' :: rest => (false, rest)
    | _ => (false, l)
  let ip := signed.2.takeWhile Char.isDigit
  let rest := signed.2.dropWhile Char.isDigit
  let fp :=
    match rest with
    | '.' :: r => r.takeWhile Char.isDigit
    | _ => []
  if ip.isEmpty && fp.isEmpty then none
  else
    let mag : ℚ := (digitsToNat ip : ℚ) + (digitsToNat fp : ℚ) / ((10 : ℚ) ^ fp.length)
    some (if signed.1 then -mag else mag)

/-- JS `parseFloat` applied to a cell value: a number converts through its
string representation back to itself; a string is parsed. -/
def parseFloatVal : CellVal → Option ℚ
  | .str s => parseFloatStr s
  | .num q => some q

/-- Evaluation of the JS idiom `parseFloat(row[i]) || 0`: an absent cell or a
NaN parse yields `0` (a parsed `0` also stays `0`). -/
def parseNumOr0 (c : Cell) : ℚ :=
  match c with
  | none => 0
  | some v => (parseFloatVal v).getD 0

section AList

variable {κ α : Type} [DecidableEq κ]

/-- Lookup in an insertion-ordered association list, the model of both a JS
object used as a dictionary and a JS `Map` (first binding wins; lists built
only by `alSet` never hold a duplicate key). -/
def alGet : List (κ × α) → κ → Option α
  | [], _ => none
  | (k, v) :: m, key => if key = k then some v else alGet m key

/-- Model of `obj[key] = val` / `Map.set`: replace the first binding of the
key in place, or append a new binding. -/
def alSet : List (κ × α) → κ → α → List (κ × α)
  | [], key, val => [(key, val)]
  | (k, v) :: m, key, val =>
      if key = k then (key, val) :: m else (k, v) :: alSet m key val

/-- Model of `Map.delete`: remove every binding of the key. -/
def alDel : List (κ × α) → κ → List (κ × α)
  | [], _ => []
  | (k, v) :: m, key => if key = k then alDel m key else (k, v) :: alDel m key

end AList

/-- Evaluation of the JS idiom `dict[key] || 0` on a numeric dictionary. -/
def alGetOr0 (m : List (String × ℚ)) (k : String) : ℚ := (alGet m k).getD 0

/-! ## Domain records (`src/Backend/src/types`, reconstructed from use sites) -/

/-- Domain record for one holding.  `rsi` distinguishes absence (`none`),
a NaN produced by parsing a truthy non-numeric cell (`some none`), and a
number (`some (some q)`); `notes` distinguishes absence from a string. -/
structure Holding where
  id : String
  symbol : String
  name : String
  sector : String
  qty : ℚ
  avg_price : ℚ
  current_price : ℚ
  value : ℚ
  rsi : Option (Option ℚ)
  allocation_pct : ℚ
  notes : Option String
  updated_at : String
  deriving Repr, DecidableEq

/-- Domain record for one target-allocation entry. -/
structure IdealAllocation where
  sector : String
  target_pct : ℚ
  deriving Repr, DecidableEq

/-- Domain record for one monthly growth entry. -/
structure MonthlyGrowth where
  month : String
  account : String
  pnl : ℚ
  deriving Repr, DecidableEq

/-- Domain record for one snapshot row. -/
structure Snapshot where
  date : String
  sector : String
  actual_pct : ℚ
  target_pct : ℚ
  variance : ℚ
  total_value : ℚ
  deriving Repr, DecidableEq

/-- Result record of the summary route handler. -/
structure Summary where
  total_invested : ℚ
  current_net_worth : ℚ
  unrealized_gain_loss : ℚ
  unrealized_pct : ℚ
  allocation_variance : List (String × ℚ)
  monthly_trend : List MonthlyGrowth
  ytd_growth : ℚ
  deriving Repr, DecidableEq

/-! ## Row store adapter (`sheetsService.ts`, helper methods lines 398-438) -/

/-- Embedding of `SheetsService.parseHoldingFromRow` (lines 398-413).  `now`
stands for the `new Date().toISOString()` fallback used when the
`updated_at` cell is falsy. -/
def parseHoldingFromRow (row : Row) (now : String) : Holding :=
  { id := (row.cell 0).strOr ""
    symbol := (row.cell 1).strOr ""
    name := (row.cell 2).strOr ""
    sector := (row.cell 3).strOr ""
    qty := parseNumOr0 (row.cell 4)
    avg_price := parseNumOr0 (row.cell 5)
    current_price := parseNumOr0 (row.cell 6)
    value := parseNumOr0 (row.cell 7)
    rsi := match row.cell 8 with
           | none => none
           | some v => if v.truthy then some (parseFloatVal v) else none
    allocation_pct := parseNumOr0 (row.cell 9)
    notes := some ((row.cell 10).strOr "")
    updated_at := (row.cell 11).strOr now }

/-- Embedding of `SheetsService.holdingToRowValues` (lines 415-430).  The JS
idiom `holding.rsi || ''` writes the empty string for an absent, NaN or zero
rsi; `holding.notes || ''` writes the empty string for absent notes. -/
def holdingToRowValues (h : Holding) : Row :=
  [ some (.str h.id),
    some (.str h.symbol),
    some (.str h.name),
    some (.str h.sector),
    some (.num h.qty),
    some (.num h.avg_price),
    some (.num h.current_price),
    some (.num h.value),
    some (match h.rsi with
          | some (some q) => if q == 0 then .str "" else .num q
          | _ => .str ""),
    some (.num h.allocation_pct),
    some (.str (match h.notes with | some s => s | none => "")),
    some (.str h.updated_at) ]

/-- Request body accepted by `createHoldingSchema` (validation file): the
client-supplied fields of a holding. -/
structure CreateBody where
  symbol : String
  name : String
  sector : String
  qty : ℚ
  avg_price : ℚ
  current_price : ℚ
  rsi : Option ℚ
  allocation_pct : ℚ
  notes : Option String
  deriving Repr, DecidableEq

/-- Decidable embedding of `createHoldingSchema` from the zod validation
file: length-bounded nonempty strings, strictly positive quantities and
prices, bounded percentages, optional bounded rsi and optional notes. -/
def validCreate (b : CreateBody) : Prop :=
  1 ≤ b.symbol.length ∧ b.symbol.length ≤ 20 ∧
  1 ≤ b.name.length ∧ b.name.length ≤ 100 ∧
  1 ≤ b.sector.length ∧ b.sector.length ≤ 50 ∧
  0 < b.qty ∧ 0 < b.avg_price ∧ 0 < b.current_price ∧
  (∀ q, b.rsi = some q → 0 ≤ q ∧ q ≤ 100) ∧
  0 ≤ b.allocation_pct ∧ b.allocation_pct ≤ 100 ∧
  (∀ s, b.notes = some s → s.length ≤ 500)

instance (b : CreateBody) : Decidable (validCreate b) := by
  unfold validCreate
  have : ∀ o : Option ℚ, Decidable (∀ q, o = some q → 0 ≤ q ∧ q ≤ 100) := by
    intro o
    cases o with
    | none => exact .isTrue (by simp)
    | some q => exact decidable_of_iff (0 ≤ q ∧ q ≤ 100) (by simp)
  have : ∀ o : Option String, Decidable (∀ s, o = some s → s.length ≤ 500) := by
    intro o
    cases o with
    | none => exact .isTrue (by simp)
    | some s => exact decidable_of_iff (s.length ≤ 500) (by simp)
  exact instDecidableAnd

/-- Embedding of `SheetsService.addHolding` (lines 85-114), with the
generated id and the current timestamp passed explicitly.  A client rsi
number becomes `some (some q)`; the stored `value` is recomputed as
`qty * current_price`. -/
def addHolding (b : CreateBody) (id now : String) : Holding :=
  { id := id
    symbol := b.symbol
    name := b.name
    sector := b.sector
    qty := b.qty
    avg_price := b.avg_price
    current_price := b.current_price
    value := b.qty * b.current_price
    rsi := b.rsi.map some
    allocation_pct := b.allocation_pct
    notes := b.notes
    updated_at := now }

/-- Request body accepted by `updateHoldingSchema` (`createHoldingSchema
.partial()`): every field optional; absent means not present in the JSON. -/
structure UpdateBody where
  symbol : Option String := none
  name : Option String := none
  sector : Option String := none
  qty : Option ℚ := none
  avg_price : Option ℚ := none
  current_price : Option ℚ := none
  rsi : Option ℚ := none
  allocation_pct : Option ℚ := none
  notes : Option String := none
  deriving Repr, DecidableEq

/-- Embedding of the merge step of `SheetsService.updateHolding` (lines
143-153): spread of the updates over the current holding, id preserved,
`updated_at` refreshed, and `value` recomputed exactly when the payload
contains `qty` or `current_price`. -/
def mergeHolding (cur : Holding) (u : UpdateBody) (id now : String) : Holding :=
  let merged : Holding :=
    { id := id
      symbol := u.symbol.getD cur.symbol
      name := u.name.getD cur.name
      sector := u.sector.getD cur.sector
      qty := u.qty.getD cur.qty
      avg_price := u.avg_price.getD cur.avg_price
      current_price := u.current_price.getD cur.current_price
      value := cur.value
      rsi := match u.rsi with | some q => some (some q) | none => cur.rsi
      allocation_pct := u.allocation_pct.getD cur.allocation_pct
      notes := match u.notes with | some s => some s | none => cur.notes
      updated_at := now }
  if u.qty ≠ none ∨ u.current_price ≠ none then
    { merged with value := merged.qty * merged.current_price }
  else merged

/-! ## Row-position cache and the stateful operations -/

/-- Builder loop shared by `initializeHoldingsRowMap` (lines 27-48) and
`getHoldings` (lines 53-80): walk the data rows (the header row is already
skipped) with `i` the 0-based index into the full row list, recording
`id ↦ i + 1` for every row whose first cell is truthy. -/
def rowMapAux : List Row → Nat → List (CellVal × Nat) → List (CellVal × Nat)
  | [], _, m => m
  | r :: rest, i, m =>
      rowMapAux rest (i + 1)
        (match r.cell 0 with
         | some v => if v.truthy then alSet m v (i + 1) else m
         | none => m)

/-- Embedding of `initializeHoldingsRowMap`: rebuild the id-to-row-position
map from the full stored row list (header at index 0 skipped, positions
1-indexed to match the external store). -/
def rowMapFrom (rows : List Row) : List (CellVal × Nat) :=
  rowMapAux (rows.drop 1) 1 []

/-- Embedding of `SheetsService.getHoldings` (lines 53-80): skip the header,
keep rows whose id cell is truthy, parse each. -/
def getHoldings (rows : List Row) (now : String) : List Holding :=
  if rows.length ≤ 1 then []
  else ((rows.drop 1).filter (fun r => (r.cell 0).truthy)).map
         (fun r => parseHoldingFromRow r now)

/-- Mutable state of the service: the in-memory row-position cache and the
stored rows of the `MF_STOCKS` range (header row included at index 0). -/
structure SvcState where
  cache : List (CellVal × Nat)
  rows : List Row
  deriving Repr, DecidableEq

/-- Outcome of a stateful operation: success with a payload or the thrown
not-found error. -/
inductive OpResult (α : Type) where
  | ok (a : α)
  | notFound
  deriving Repr, DecidableEq

/-- Embedding of `SheetsService.deleteHolding` (lines 176-210) as a state
transition.  The returned number counts cache-rebuild attempts (the code
rebuilds only when the cache is empty, lines 179-181); on success the
matched row is removed from the store and the id dropped from the cache. -/
def deleteHolding (st : SvcState) (id : String) : OpResult Unit × SvcState × Nat :=
  let rebuilt := if st.cache = [] then (rowMapFrom st.rows, 1) else (st.cache, 0)
  match alGet rebuilt.1 (.str id) with
  | none => (.notFound, { st with cache := rebuilt.1 }, rebuilt.2)
  | some rowIndex =>
      (.ok (), { cache := alDel rebuilt.1 (.str id),
                 rows := st.rows.eraseIdx (rowIndex - 1) }, rebuilt.2)

/-- Embedding of `SheetsService.updateHolding` (lines 119-171) as a state
transition.  After the cache phase (identical to delete), the current row is
fetched by position, parsed, merged with the payload, and written back; the
returned number again counts cache-rebuild attempts. -/
def updateHolding (st : SvcState) (id : String) (u : UpdateBody) (now : String) :
    OpResult Holding × SvcState × Nat :=
  let rebuilt := if st.cache = [] then (rowMapFrom st.rows, 1) else (st.cache, 0)
  match alGet rebuilt.1 (.str id) with
  | none => (.notFound, { st with cache := rebuilt.1 }, rebuilt.2)
  | some rowIndex =>
      match st.rows.get? (rowIndex - 1) with
      | none => (.notFound, { st with cache := rebuilt.1 }, rebuilt.2)
      | some currentRow =>
          let updated := mergeHolding (parseHoldingFromRow currentRow now) u id now
          (.ok updated,
           { cache := rebuilt.1,
             rows := st.rows.set (rowIndex - 1) (holdingToRowValues updated) },
           rebuilt.2)

/-! ## Aggregation engine -/

/-- Embedding of the `sectorTotals` reduce (`createSnapshot` lines 311-314
and the summary handler lines 156-159): fold the holdings into a dictionary
accumulating `value` per sector. -/
def sectorTotals (holdings : List Holding) : List (String × ℚ) :=
  holdings.foldl (fun acc h => alSet acc h.sector (alGetOr0 acc h.sector + h.value)) []

/-- Embedding of `SheetsService.createSnapshot` (lines 303-358), the pure
computation part: one snapshot per ideal-allocation entry, in order, all
sharing the current date and the portfolio total value. -/
def createSnapshot (holdings : List Holding) (ideals : List IdealAllocation)
    (currentDate : String) : List Snapshot :=
  let totalValue := holdings.foldl (fun sum h => sum + h.value) 0
  let st := sectorTotals holdings
  ideals.map (fun allocation =>
    let actualValue := alGetOr0 st allocation.sector
    let actualPct := if totalValue > 0 then actualValue / totalValue * 100 else 0
    { date := currentDate
      sector := allocation.sector
      actual_pct := actualPct
      target_pct := allocation.target_pct
      variance := actualPct - allocation.target_pct
      total_value := totalValue })

/-- Embedding of the `GET /v1/summary` handler (`routes/index.ts` lines
141-193), with the current four-digit year passed explicitly.  The
allocation-variance dictionary is built by the `forEach` over the ideals;
the monthly trend sorts the growth list descending by month (JS sort is
stable; `localeCompare` on `YYYY-MM` strings agrees with the codepoint
order used here), takes the first 12 and reverses. -/
def computeSummary (holdings : List Holding) (ideals : List IdealAllocation)
    (growth : List MonthlyGrowth) (currentYear : String) : Summary :=
  let totalInvested := holdings.foldl (fun sum h => sum + h.qty * h.avg_price) 0
  let currentNetWorth := holdings.foldl (fun sum h => sum + h.value) 0
  let unrealizedGainLoss := currentNetWorth - totalInvested
  let unrealizedPct :=
    if totalInvested > 0 then unrealizedGainLoss / totalInvested * 100 else 0
  let st := sectorTotals holdings
  let allocationVariance := ideals.foldl
    (fun acc ideal =>
      let actualValue := alGetOr0 st ideal.sector
      let actualPct := if currentNetWorth > 0 then actualValue / currentNetWorth * 100 else 0
      alSet acc ideal.sector (actualPct - ideal.target_pct)) []
  let ytdGrowth := (growth.filter (fun e => e.month.startsWith currentYear)).foldl
    (fun sum e => sum + e.pnl) 0
  let sortedGrowth :=
    ((growth.mergeSort (fun a b => decide (b.month ≤ a.month))).take 12).reverse
  { total_invested := totalInvested
    current_net_worth := currentNetWorth
    unrealized_gain_loss := unrealizedGainLoss
    unrealized_pct := unrealizedPct
    allocation_variance := allocationVariance
    monthly_trend := sortedGrowth
    ytd_growth := ytdGrowth }

/-! ## Identifier generation and validation -/

/-- Sample holding used in concrete instances of the theorems below. -/
def demoH (sector : String) (qty avg cp value : ℚ) : Holding :=
  ⟨"hid", "SYM", "Name", sector, qty, avg, cp, value, none, 0, none, "t0"⟩

/-- Hexadecimal digit character for a value below 16 (JS `v.toString(16)`). -/
def hexDigit (n : Fin 16) : Char :=
  "0123456789abcdef".toList.getD n.val '0'

/-- Variant-nibble transform of `generateUUID`: JS `r & 0x3 | 0x8`. -/
def yDigit (r : Fin 16) : Char := hexDigit ⟨r.val % 4 + 8, by omega⟩

/-- Template string of `SheetsService.generateUUID` (line 433). -/
def uuidTemplate : List Char := "xxxxxxxx-xxxx-4xxx-yxxx-xxxxxxxxxxxx".toList

/-- Replacement loop of `generateUUID`: each `x` consumes one random nibble
verbatim, each `y` consumes one and maps it through `r & 0x3 | 0x8`; every
other character is copied. -/
def genUUIDAux (rand : Nat → Fin 16) : List Char → Nat → List Char
  | [], _ => []
  | c :: cs, k =>
      if c = 'x' then hexDigit (rand k) :: genUUIDAux rand cs (k + 1)
      else if c = 'y' then yDigit (rand k) :: genUUIDAux rand cs (k + 1)
      else c :: genUUIDAux rand cs k

/-- Embedding of `SheetsService.generateUUID` (lines 432-438), parameterised
by the stream of `Math.random() * 16 | 0` draws. -/
def generateUUID (rand : Nat → Fin 16) : String :=
  ⟨genUUIDAux rand uuidTemplate 0⟩

/-- Hexadecimal-character test (either case), as in the UUID format checked
by the route-parameter validator. -/
def isHexChar (c : Char) : Bool := "0123456789abcdefABCDEF".toList.contains c

/-- Modelled from the spec: the zod library backing `holdingIdSchema`
(`z.string().uuid()` in the validation file) is an external collaborator
whose source is not part of this repository; its documented UUID check is
the 8-4-4-4-12 hex-digit shape with hyphens at positions 8, 13, 18 and 23
and a version nibble 1-5 at position 14; `uuidCheckFrom` walks the
characters carrying the current position. -/
def uuidCheckFrom : List Char → Nat → Bool
  | [], i => i == 36
  | c :: cs, i =>
      (if i == 8 || i == 13 || i == 18 || i == 23 then c == '-'
       else if i == 14 then ['1', '2', '3', '4', '5'].contains c
       else isHexChar c) && uuidCheckFrom cs (i + 1)

/-- Acceptance test of `holdingIdSchema` on the id path parameter, built on
`uuidCheckFrom` starting at position 0. -/
def uuidFormatOk (s : String) : Bool := uuidCheckFrom s.toList 0

/-! ## Helper lemmas on folds and dictionaries -/

theorem alGet_alSet_self {κ α : Type} [DecidableEq κ] (m : List (κ × α)) (k : κ) (v : α) :
    alGet (alSet m k v) k = some v := by
  induction m with
  | nil => simp [alSet, alGet]
  | cons p m ih =>
      by_cases h : k = p.1
      · simp [alSet, h, alGet]
      · simp [alSet, h, alGet, ih]

theorem alGet_alSet_ne {κ α : Type} [DecidableEq κ] (m : List (κ × α)) (k k' : κ) (v : α)
    (h : k' ≠ k) : alGet (alSet m k v) k' = alGet m k' := by
  induction m with
  | nil => simp [alSet, alGet, h]
  | cons p m ih =>
      by_cases hk : k = p.1
      · subst hk
        simp [alSet, alGet, h]
      · by_cases hk' : k' = p.1
        · simp [alSet, hk, alGet, hk']
        · simp [alSet, hk, alGet, hk', ih]

theorem alGet_none_of_not_mem_keys {κ α : Type} [DecidableEq κ] (m : List (κ × α)) (k : κ)
    (h : k ∉ m.map Prod.fst) : alGet m k = none := by
  induction m with
  | nil => simp [alGet]
  | cons p m ih =>
      simp only [List.map_cons, List.mem_cons] at h
      push_neg at h
      simp [alGet, h.1, ih h.2]

theorem foldl_add_map {α : Type} (f : α → ℚ) (l : List α) (c : ℚ) :
    l.foldl (fun sum x => sum + f x) c = c + (l.map f).sum := by
  induction l generalizing c with
  | nil => simp
  | cons x t ih => simp only [List.foldl_cons, ih, List.map_cons, List.sum_cons]; ring

theorem alGetOr0_alSet_self (m : List (String × ℚ)) (k : String) (v : ℚ) :
    alGetOr0 (alSet m k v) k = v := by
  simp [alGetOr0, alGet_alSet_self]

theorem alGetOr0_alSet_ne (m : List (String × ℚ)) (k k' : String) (v : ℚ) (h : k' ≠ k) :
    alGetOr0 (alSet m k v) k' = alGetOr0 m k' := by
  simp [alGetOr0, alGet_alSet_ne m k k' v h]

theorem alGetOr0_sectorTotals_aux (hs : List Holding) (acc : List (String × ℚ))
    (s : String) :
    alGetOr0 (hs.foldl (fun acc h => alSet acc h.sector (alGetOr0 acc h.sector + h.value)) acc) s
      = alGetOr0 acc s + ((hs.filter (fun h => h.sector == s)).map Holding.value).sum := by
  induction hs generalizing acc with
  | nil => simp
  | cons h t ih =>
      simp only [List.foldl_cons, ih]
      by_cases hsec : h.sector = s
      · subst hsec
        simp [alGetOr0_alSet_self]
        ring
      · have : ¬(h.sector == s) = true := by simpa using hsec
        rw [alGetOr0_alSet_ne _ _ _ _ (fun hE => hsec hE.symm)]
        simp [List.filter_cons, this]

/-- Characterisation of the code's sector-totals dictionary: the stored value
for a sector is the sum of `value` over the holdings of that sector. -/
theorem alGetOr0_sectorTotals (hs : List Holding) (s : String) :
    alGetOr0 (sectorTotals hs) s
      = ((hs.filter (fun h => h.sector == s)).map Holding.value).sum := by
  have := alGetOr0_sectorTotals_aux hs [] s
  simpa [sectorTotals, alGetOr0, alGet] using this


/-! ## Characterisation lemmas for the aggregation engine -/

theorem createSnapshot_eq (holdings : List Holding) (ideals : List IdealAllocation)
    (d : String) :
    createSnapshot holdings ideals d =
      ideals.map (fun a =>
        { date := d
          sector := a.sector
          actual_pct :=
            if 0 < (holdings.map Holding.value).sum then
              ((holdings.filter (fun h => h.sector == a.sector)).map Holding.value).sum
                / (holdings.map Holding.value).sum * 100
            else 0
          target_pct := a.target_pct
          variance :=
            (if 0 < (holdings.map Holding.value).sum then
              ((holdings.filter (fun h => h.sector == a.sector)).map Holding.value).sum
                / (holdings.map Holding.value).sum * 100
            else 0) - a.target_pct
          total_value := (holdings.map Holding.value).sum }) := by
  unfold createSnapshot
  apply List.map_congr_left
  intro a _
  simp only [foldl_add_map, zero_add, alGetOr0_sectorTotals]

theorem summary_total_invested (holdings : List Holding) (ideals : List IdealAllocation)
    (growth : List MonthlyGrowth) (year : String) :
    (computeSummary holdings ideals growth year).total_invested
      = (holdings.map (fun h => h.qty * h.avg_price)).sum := by
  unfold computeSummary
  simp [foldl_add_map]

theorem summary_net_worth (holdings : List Holding) (ideals : List IdealAllocation)
    (growth : List MonthlyGrowth) (year : String) :
    (computeSummary holdings ideals growth year).current_net_worth
      = (holdings.map Holding.value).sum := by
  unfold computeSummary
  simp [foldl_add_map]

theorem summary_gain_loss (holdings : List Holding) (ideals : List IdealAllocation)
    (growth : List MonthlyGrowth) (year : String) :
    (computeSummary holdings ideals growth year).unrealized_gain_loss
      = (holdings.map Holding.value).sum - (holdings.map (fun h => h.qty * h.avg_price)).sum := by
  unfold computeSummary
  simp [foldl_add_map]

theorem summary_unrealized_pct (holdings : List Holding) (ideals : List IdealAllocation)
    (growth : List MonthlyGrowth) (year : String) :
    (computeSummary holdings ideals growth year).unrealized_pct
      = if 0 < (holdings.map (fun h => h.qty * h.avg_price)).sum then
          ((holdings.map Holding.value).sum - (holdings.map (fun h => h.qty * h.avg_price)).sum)
            / (holdings.map (fun h => h.qty * h.avg_price)).sum * 100
        else 0 := by
  unfold computeSummary
  simp [foldl_add_map]

theorem av_keys_aux (l : List IdealAllocation) (f : IdealAllocation → ℚ)
    (acc : List (String × ℚ)) (sec : String) :
    (alGet (l.foldl (fun a i => alSet a i.sector (f i)) acc) sec).isSome
      ↔ (alGet acc sec).isSome ∨ sec ∈ l.map IdealAllocation.sector := by
  induction l generalizing acc with
  | nil => simp
  | cons i t ih =>
      simp only [List.foldl_cons, ih, List.map_cons, List.mem_cons]
      by_cases h : sec = i.sector
      · subst h
        simp [alGet_alSet_self]
      · rw [alGet_alSet_ne _ _ _ _ h]
        simp [h]

theorem av_values_aux (l : List IdealAllocation) (f : IdealAllocation → ℚ)
    (acc : List (String × ℚ)) (sec : String) (v : ℚ)
    (h : alGet (l.foldl (fun a i => alSet a i.sector (f i)) acc) sec = some v) :
    (∃ i ∈ l, i.sector = sec ∧ v = f i) ∨ alGet acc sec = some v := by
  induction l generalizing acc with
  | nil => exact .inr h
  | cons i t ih =>
      rcases ih (alSet acc i.sector (f i)) h with hl | hr
      · obtain ⟨j, hj, hsec, hv⟩ := hl
        exact .inl ⟨j, List.mem_cons_of_mem _ hj, hsec, hv⟩
      · by_cases hs : sec = i.sector
        · subst hs
          rw [alGet_alSet_self] at hr
          exact .inl ⟨i, List.mem_cons_self _ _, rfl, (Option.some_inj.mp hr).symm⟩
        · rw [alGet_alSet_ne _ _ _ _ hs] at hr
          exact .inr hr

theorem summary_alloc_var (holdings : List Holding) (ideals : List IdealAllocation)
    (growth : List MonthlyGrowth) (year : String) :
    (computeSummary holdings ideals growth year).allocation_variance
      = ideals.foldl (fun acc ideal =>
          alSet acc ideal.sector
            ((if 0 < (holdings.map Holding.value).sum then
                alGetOr0 (sectorTotals holdings) ideal.sector
                  / (holdings.map Holding.value).sum * 100
              else 0) - ideal.target_pct)) [] := by
  unfold computeSummary
  simp [foldl_add_map]

theorem monthly_trend_char (holdings : List Holding) (ideals : List IdealAllocation)
    (growth : List MonthlyGrowth) (year : String) :
    (computeSummary holdings ideals growth year).monthly_trend
      = ((growth.mergeSort (fun a b => decide (b.month ≤ a.month))).take 12).reverse := rfl

/-! ## Claim theorems -/

/-- C1: a snapshot run emits exactly one record per ideal-allocation entry,
in the given order, each carrying the shared current date and the shared
portfolio total value, with `actual_pct` equal to sector value over total
value times 100 when the total is positive and 0 otherwise, `target_pct`
copied and `variance = actual_pct - target_pct`; instantiated on the
tech/bonds example of the spec (values 600 and 300, net worth 900). -/
theorem snapshot_run_spec :
    (∀ (holdings : List Holding) (ideals : List IdealAllocation) (d : String),
      createSnapshot holdings ideals d =
        ideals.map (fun a =>
          { date := d
            sector := a.sector
            actual_pct :=
              if 0 < (holdings.map Holding.value).sum then
                ((holdings.filter (fun h => h.sector == a.sector)).map Holding.value).sum
                  / (holdings.map Holding.value).sum * 100
              else 0
            target_pct := a.target_pct
            variance :=
              (if 0 < (holdings.map Holding.value).sum then
                ((holdings.filter (fun h => h.sector == a.sector)).map Holding.value).sum
                  / (holdings.map Holding.value).sum * 100
              else 0) - a.target_pct
            total_value := (holdings.map Holding.value).sum })) ∧
    createSnapshot [demoH "tech" 0 0 0 600, demoH "bonds" 0 0 0 300]
        [⟨"tech", 60⟩, ⟨"bonds", 40⟩] "2026-10-11" =
      [⟨"2026-10-11", "tech", 600 / 900 * 100, 60, 600 / 900 * 100 - 60, 900⟩,
       ⟨"2026-10-11", "bonds", 300 / 900 * 100, 40, 300 / 900 * 100 - 40, 900⟩] := by
  refine ⟨createSnapshot_eq, ?_⟩
  rw [createSnapshot_eq]
  simp +decide [demoH, List.filter]
  norm_num

/-- C2: the summary KPIs satisfy `total_invested = Σ qty * avg_price`,
`current_net_worth = Σ value`, `unrealized_gain_loss` is their difference,
and `unrealized_pct` is the percentage gain when `total_invested` is
positive and exactly 0 when it is 0, independently of the net worth; the
computation is total (never an error). -/
theorem summary_kpis_spec (holdings : List Holding) (ideals : List IdealAllocation)
    (growth : List MonthlyGrowth) (year : String) :
    (computeSummary holdings ideals growth year).total_invested
        = (holdings.map (fun h => h.qty * h.avg_price)).sum ∧
    (computeSummary holdings ideals growth year).current_net_worth
        = (holdings.map Holding.value).sum ∧
    (computeSummary holdings ideals growth year).unrealized_gain_loss
        = (computeSummary holdings ideals growth year).current_net_worth
          - (computeSummary holdings ideals growth year).total_invested ∧
    (0 < (computeSummary holdings ideals growth year).total_invested →
      (computeSummary holdings ideals growth year).unrealized_pct
        = (computeSummary holdings ideals growth year).unrealized_gain_loss
          / (computeSummary holdings ideals growth year).total_invested * 100) ∧
    ((computeSummary holdings ideals growth year).total_invested = 0 →
      (computeSummary holdings ideals growth year).unrealized_pct = 0) := by
  refine ⟨summary_total_invested .., summary_net_worth .., ?_, fun h0 => ?_, fun h0 => ?_⟩
  · rw [summary_gain_loss, summary_net_worth, summary_total_invested]
  · rw [summary_unrealized_pct, summary_gain_loss, summary_total_invested,
        if_pos (by rwa [summary_total_invested] at h0)]
  · rw [summary_unrealized_pct,
        if_neg (by rw [summary_total_invested] at h0; rw [h0]; exact lt_irrefl 0)]

/-- Witness for C2: on a single holding bought at 20 and now worth 30 the
unrealized percentage is the 50% given by the formula; on a holding with
zero invested amount but positive stored value it is exactly 0. -/
theorem summary_kpis_witness :
    (0 < (computeSummary [demoH "tech" 2 10 15 30] [] [] "2026").total_invested ∧
      (computeSummary [demoH "tech" 2 10 15 30] [] [] "2026").unrealized_pct
        = (computeSummary [demoH "tech" 2 10 15 30] [] [] "2026").unrealized_gain_loss
          / (computeSummary [demoH "tech" 2 10 15 30] [] [] "2026").total_invested * 100) ∧
    ((computeSummary [demoH "tech" 0 0 15 30] [] [] "2026").total_invested = 0 ∧
      (computeSummary [demoH "tech" 0 0 15 30] [] [] "2026").unrealized_pct = 0) :=
  ⟨⟨by rw [summary_total_invested]; norm_num [demoH],
    (summary_kpis_spec [demoH "tech" 2 10 15 30] [] [] "2026").2.2.2.1
      (by rw [summary_total_invested]; norm_num [demoH])⟩,
   ⟨by rw [summary_total_invested]; norm_num [demoH],
    (summary_kpis_spec [demoH "tech" 0 0 15 30] [] [] "2026").2.2.2.2
      (by rw [summary_total_invested]; norm_num [demoH])⟩⟩

/-- C3: the allocation-variance dictionary of the summary has key set
exactly the sectors of the ideals list (sectors held but absent from the
ideals never appear), and every stored value is `actual_pct - target_pct`
for the corresponding ideal entry, with `actual_pct` the sector share of
the net worth times 100 when the net worth is positive and 0 otherwise. -/
theorem allocation_variance_spec (holdings : List Holding) (ideals : List IdealAllocation)
    (growth : List MonthlyGrowth) (year : String) :
    (∀ sec : String,
      (alGet (computeSummary holdings ideals growth year).allocation_variance sec).isSome
        ↔ sec ∈ ideals.map IdealAllocation.sector) ∧
    (∀ (sec : String) (v : ℚ),
      alGet (computeSummary holdings ideals growth year).allocation_variance sec = some v →
      ∃ t : ℚ, IdealAllocation.mk sec t ∈ ideals ∧
        v = (if 0 < (computeSummary holdings ideals growth year).current_net_worth then
               ((holdings.filter (fun h => h.sector == sec)).map Holding.value).sum
                 / (computeSummary holdings ideals growth year).current_net_worth * 100
             else 0) - t) := by
  constructor
  · intro sec
    rw [summary_alloc_var, av_keys_aux]
    simp [alGet]
  · intro sec v h
    rw [summary_alloc_var] at h
    rcases av_values_aux _ _ _ _ _ h with ⟨i, hi, hsec, hv⟩ | habs
    · refine ⟨i.target_pct, ?_, ?_⟩
      · have hrec : IdealAllocation.mk sec i.target_pct = i := by
          cases i
          cases hsec
          rfl
        rw [hrec]
        exact hi
      · rw [summary_net_worth, hv, alGetOr0_sectorTotals, hsec]
    · simp [alGet] at habs

/-- Witness for C3: with no holdings and the single ideal entry (tech, 60),
the variance map has the key "tech" and stores the value 0 - 60 = -60. -/
theorem allocation_variance_witness :
    ((alGet (computeSummary [] [⟨"tech", 60⟩] [] "2026").allocation_variance "tech").isSome
        = true) ∧
    (∃ t : ℚ, IdealAllocation.mk "tech" t ∈ [(⟨"tech", 60⟩ : IdealAllocation)] ∧
      (-60 : ℚ) = (if 0 < (computeSummary [] [⟨"tech", 60⟩] [] "2026").current_net_worth then
          ((([] : List Holding).filter (fun h => h.sector == "tech")).map Holding.value).sum
            / (computeSummary [] [⟨"tech", 60⟩] [] "2026").current_net_worth * 100
        else 0) - t) :=
  ⟨((allocation_variance_spec [] [⟨"tech", 60⟩] [] "2026").1 "tech").mpr (by simp),
   (allocation_variance_spec [] [⟨"tech", 60⟩] [] "2026").2 "tech" (-60)
     (by rw [summary_alloc_var]; norm_num [alSet, alGet])⟩

/-- C4: the monthly trend of the summary is the growth list sorted
descending by month, truncated to 12 entries and reversed; consequently it
has at most 12 entries, is sorted ascending by month, and only contains
entries of the input growth list. -/
theorem monthly_trend_spec (holdings : List Holding) (ideals : List IdealAllocation)
    (growth : List MonthlyGrowth) (year : String) :
    (computeSummary holdings ideals growth year).monthly_trend
      = ((growth.mergeSort (fun a b => decide (b.month ≤ a.month))).take 12).reverse ∧
    (computeSummary holdings ideals growth year).monthly_trend.length ≤ 12 ∧
    List.Pairwise (fun a b => a.month ≤ b.month)
      (computeSummary holdings ideals growth year).monthly_trend ∧
    (∀ e, e ∈ (computeSummary holdings ideals growth year).monthly_trend → e ∈ growth) := by
  refine ⟨monthly_trend_char .., ?_, ?_, ?_⟩
  · rw [monthly_trend_char]
    simp
  · rw [monthly_trend_char]
    rw [List.pairwise_reverse]
    have hs := @List.sorted_mergeSort MonthlyGrowth
      (fun a b : MonthlyGrowth => decide (b.month ≤ a.month))
      (fun a b c h1 h2 => by
        simp only [decide_eq_true_eq] at *
        exact le_trans h2 h1)
      (fun a b => by
        simp only [Bool.or_eq_true, decide_eq_true_eq]
        exact le_total b.month a.month)
      growth
    have ht := hs.sublist (List.take_sublist 12 _)
    exact ht.imp (fun h => by simpa using h)
  · intro e he
    rw [monthly_trend_char, List.mem_reverse] at he
    exact List.mem_mergeSort.mp (List.take_subset _ _ he)

/-- Witness for C4: a single growth entry survives the trend computation and
is indeed an entry of the input list. -/
theorem monthly_trend_witness :
    (⟨"2026-01", "acct", 5⟩ : MonthlyGrowth) ∈ [(⟨"2026-01", "acct", 5⟩ : MonthlyGrowth)] :=
  (monthly_trend_spec [] [] [⟨"2026-01", "acct", 5⟩] "2026").2.2.2 _
    (by rw [monthly_trend_char]; simp)

/-- C5 counterexample: with a nonempty cache holding only the id "a", the
delete operation on the missing id "b" declares not-found with zero rebuild
attempts, refuting the claim that every cache miss triggers exactly one
rebuild before not-found. -/
theorem cache_rebuild_counterexample :
    alGet [(CellVal.str "a", 2)] (CellVal.str "b") = none ∧
    (deleteHolding ⟨[(CellVal.str "a", 2)], []⟩ "b").1 = OpResult.notFound ∧
    (deleteHolding ⟨[(CellVal.str "a", 2)], []⟩ "b").2.2 = 0 := by
  refine ⟨by decide, ?_, ?_⟩ <;> rfl

/-- C5 (amended): the update and delete operations perform exactly one
cache-rebuild attempt when the row-position cache is empty at call time and
none otherwise — in particular never more than one; a missing identifier in
a nonempty cache is declared not-found without any rebuild. -/
theorem cache_rebuild_amended (st : SvcState) (id : String) (u : UpdateBody)
    (now : String) :
    ((deleteHolding st id).2.2 = if st.cache = [] then 1 else 0) ∧
    ((updateHolding st id u now).2.2 = if st.cache = [] then 1 else 0) ∧
    (deleteHolding st id).2.2 ≤ 1 ∧
    (updateHolding st id u now).2.2 ≤ 1 := by
  have hd : (deleteHolding st id).2.2 = if st.cache = [] then 1 else 0 := by
    unfold deleteHolding
    by_cases hc : st.cache = [] <;>
      simp only [hc, if_true, if_false, ite_true, ite_false] <;>
      split <;> rfl
  have hu : (updateHolding st id u now).2.2 = if st.cache = [] then 1 else 0 := by
    unfold updateHolding
    by_cases hc : st.cache = [] <;>
      simp only [hc, if_true, if_false, ite_true, ite_false] <;>
      split <;> (try split) <;> rfl
  refine ⟨hd, hu, ?_, ?_⟩
  · rw [hd]
    split <;> omega
  · rw [hu]
    split <;> omega

/-- C6 counterexample: a sequentially reachable stale cache refutes the
unconditional claim.  Start from an empty cache over rows A, B, C: deleting
A rebuilds the cache and removes A's row, shifting B and C up without
updating their cached positions; deleting B then erases C's row instead
(first conjuncts).  In the resulting state the id C is absent from the
stored holdings (third conjunct), yet deleting C succeeds silently —
`OpResult.ok`, not the not-found error — because its stale cache entry
survives and the `size === 0` guard never rebuilds (fourth conjunct). -/
theorem delete_nonexistent_counterexample :
    (deleteHolding ⟨[], [[], [some (CellVal.str "A")], [some (CellVal.str "B")],
        [some (CellVal.str "C")]]⟩ "A").2.1
      = ⟨[(CellVal.str "B", 3), (CellVal.str "C", 4)],
         [[], [some (CellVal.str "B")], [some (CellVal.str "C")]]⟩ ∧
    (deleteHolding ⟨[(CellVal.str "B", 3), (CellVal.str "C", 4)],
        [[], [some (CellVal.str "B")], [some (CellVal.str "C")]]⟩ "B").2.1
      = ⟨[(CellVal.str "C", 4)], [[], [some (CellVal.str "B")]]⟩ ∧
    CellVal.str "C" ∉ (rowMapFrom [[], [some (CellVal.str "B")]]).map Prod.fst ∧
    (deleteHolding ⟨[(CellVal.str "C", 4)], [[], [some (CellVal.str "B")]]⟩ "C").1
      = OpResult.ok () := by
  refine ⟨rfl, rfl, by decide, rfl⟩

/-- C6 (amended): deleting an identifier that does not occur in the stored
holdings fails with the not-found error and leaves the stored rows, hence
the row count, unchanged — provided the row-position cache does not carry a
stale entry for that identifier (it is empty, so the lookup runs against a
fresh rebuild from the store, or it is nonempty and does not map the id).
Without that proviso a stale entry makes the delete silently succeed and
can erase a different holding's row, as the counterexample shows. -/
theorem delete_nonexistent_spec (st : SvcState) (id : String)
    (h1 : CellVal.str id ∉ (rowMapFrom st.rows).map Prod.fst)
    (h2 : st.cache ≠ [] → alGet st.cache (CellVal.str id) = none) :
    (deleteHolding st id).1 = OpResult.notFound ∧
    (deleteHolding st id).2.1.rows = st.rows ∧
    (deleteHolding st id).2.1.rows.length = st.rows.length := by
  have hmiss :
      alGet (if st.cache = [] then (rowMapFrom st.rows, 1) else (st.cache, 0)).1
        (CellVal.str id) = none := by
    by_cases hc : st.cache = []
    · rw [if_pos hc]
      exact alGet_none_of_not_mem_keys _ _ h1
    · rw [if_neg hc]
      exact h2 hc
  unfold deleteHolding
  simp [hmiss]

/-- Witness for C6: deleting "b" from a store whose only data row has id "a"
(empty cache) reports not-found and keeps both rows. -/
theorem delete_nonexistent_witness :
    (deleteHolding ⟨[], [[], [some (CellVal.str "a")]]⟩ "b").1 = OpResult.notFound ∧
    (deleteHolding ⟨[], [[], [some (CellVal.str "a")]]⟩ "b").2.1.rows
      = [[], [some (CellVal.str "a")]] :=
  ⟨(delete_nonexistent_spec ⟨[], [[], [some (CellVal.str "a")]]⟩ "b" (by decide)
      (fun hc => absurd rfl hc)).1,
   (delete_nonexistent_spec ⟨[], [[], [some (CellVal.str "a")]]⟩ "b" (by decide)
      (fun hc => absurd rfl hc)).2.1⟩

/-- C7 counterexample: on a row with no rsi cell the parser yields an absent
rsi (`undefined`), not the number 0 — refuting the claim that every missing
numeric cell, rsi included, parses to 0.  (A truthy non-numeric rsi cell
likewise parses to NaN, not 0.) -/
theorem parse_row_counterexample :
    (parseHoldingFromRow [] "2026-01-01T00:00:00.000Z").rsi = none ∧
    (parseHoldingFromRow [] "2026-01-01T00:00:00.000Z").rsi ≠ some (some 0) := by
  refine ⟨rfl, by decide⟩

/-- C7 (amended): row parsing is total (never an error); the numeric cells
qty, avg_price, current_price, value and allocation_pct parse to 0 when
missing or non-numeric; the rsi cell parses to absent when missing or falsy
and to the `parseFloat` result (possibly NaN) when truthy; the string cells
id, symbol, name and sector parse to the empty string when absent, notes to
the empty string, and a missing updated_at falls back to the current
timestamp. -/
theorem parse_row_amended (row : Row) (now : String) :
    (row.cell 4 = none → (parseHoldingFromRow row now).qty = 0) ∧
    (∀ v, row.cell 4 = some v → parseFloatVal v = none →
      (parseHoldingFromRow row now).qty = 0) ∧
    (row.cell 5 = none → (parseHoldingFromRow row now).avg_price = 0) ∧
    (∀ v, row.cell 5 = some v → parseFloatVal v = none →
      (parseHoldingFromRow row now).avg_price = 0) ∧
    (row.cell 6 = none → (parseHoldingFromRow row now).current_price = 0) ∧
    (∀ v, row.cell 6 = some v → parseFloatVal v = none →
      (parseHoldingFromRow row now).current_price = 0) ∧
    (row.cell 7 = none → (parseHoldingFromRow row now).value = 0) ∧
    (∀ v, row.cell 7 = some v → parseFloatVal v = none →
      (parseHoldingFromRow row now).value = 0) ∧
    (row.cell 9 = none → (parseHoldingFromRow row now).allocation_pct = 0) ∧
    (∀ v, row.cell 9 = some v → parseFloatVal v = none →
      (parseHoldingFromRow row now).allocation_pct = 0) ∧
    (row.cell 8 = none → (parseHoldingFromRow row now).rsi = none) ∧
    (∀ v, row.cell 8 = some v → v.truthy = false →
      (parseHoldingFromRow row now).rsi = none) ∧
    (∀ v, row.cell 8 = some v → v.truthy = true →
      (parseHoldingFromRow row now).rsi = some (parseFloatVal v)) ∧
    (row.cell 0 = none → (parseHoldingFromRow row now).id = "") ∧
    (row.cell 1 = none → (parseHoldingFromRow row now).symbol = "") ∧
    (row.cell 2 = none → (parseHoldingFromRow row now).name = "") ∧
    (row.cell 3 = none → (parseHoldingFromRow row now).sector = "") ∧
    (row.cell 10 = none → (parseHoldingFromRow row now).notes = some "") ∧
    (row.cell 11 = none → (parseHoldingFromRow row now).updated_at = now) := by
  refine ⟨fun h => ?_, fun v h hf => ?_, fun h => ?_, fun v h hf => ?_, fun h => ?_,
    fun v h hf => ?_, fun h => ?_, fun v h hf => ?_, fun h => ?_, fun v h hf => ?_,
    fun h => ?_, fun v h hf => ?_, fun v h hf => ?_, fun h => ?_, fun h => ?_,
    fun h => ?_, fun h => ?_, fun h => ?_, fun h => ?_⟩ <;>
  simp [parseHoldingFromRow, parseNumOr0, Cell.strOr, h, *]

/-- Witness for C7: an empty row parses with qty 0, absent rsi, empty id and
`updated_at` fallback; a row whose fifth cell is the non-numeric string
"abc" also parses with qty 0. -/
theorem parse_row_witness :
    (parseHoldingFromRow [] "T").qty = 0 ∧
    (parseHoldingFromRow [none, none, none, none, some (CellVal.str "abc")] "T").qty = 0 ∧
    (parseHoldingFromRow [] "T").rsi = none ∧
    (parseHoldingFromRow [] "T").id = "" ∧
    (parseHoldingFromRow [] "T").updated_at = "T" :=
  ⟨(parse_row_amended [] "T").1 rfl,
   (parse_row_amended [none, none, none, none, some (CellVal.str "abc")] "T").2.1
     (CellVal.str "abc") rfl (by decide),
   (parse_row_amended [] "T").2.2.2.2.2.2.2.2.2.2.1 rfl,
   (parse_row_amended [] "T").2.2.2.2.2.2.2.2.2.2.2.2.2.1 rfl,
   (parse_row_amended [] "T").2.2.2.2.2.2.2.2.2.2.2.2.2.2.2.2.2.2 rfl⟩

theorem mergeHolding_value (cur : Holding) (u : UpdateBody) (id now : String)
    (h : u.qty ≠ none ∨ u.current_price ≠ none) :
    (mergeHolding cur u id now).value
      = (mergeHolding cur u id now).qty * (mergeHolding cur u id now).current_price := by
  unfold mergeHolding
  rw [if_pos h]

/-- C8: immediately after a create, and immediately after an update whose
payload includes qty or current_price, the holding returned (and serialised
for persistence) satisfies `value = qty * current_price`. -/
theorem value_invariant_spec (b : CreateBody) (cid cnow : String)
    (st : SvcState) (id : String) (u : UpdateBody) (now : String) (h' : Holding)
    (hok : (updateHolding st id u now).1 = OpResult.ok h')
    (htouch : u.qty ≠ none ∨ u.current_price ≠ none) :
    (addHolding b cid cnow).value
        = (addHolding b cid cnow).qty * (addHolding b cid cnow).current_price ∧
    h'.value = h'.qty * h'.current_price := by
  refine ⟨rfl, ?_⟩
  unfold updateHolding at hok
  dsimp only at hok
  split at hok
  · exact absurd hok (by simp)
  · split at hok
    · exact absurd hok (by simp)
    · dsimp only at hok
      injection hok with hok
      rw [← hok]
      exact mergeHolding_value _ _ _ _ htouch

/-- Witness for C8: creating a holding with qty 2 at current price 20 gives
value 2 * 20, and updating qty to 5 on a stored holding priced 20 returns a
record with value 100 = 5 * 20. -/
theorem value_invariant_witness :
    ((addHolding ⟨"S", "N", "tech", 2, 10, 20, none, 0, none⟩ "cid" "T").value
        = (addHolding ⟨"S", "N", "tech", 2, 10, 20, none, 0, none⟩ "cid" "T").qty
          * (addHolding ⟨"S", "N", "tech", 2, 10, 20, none, 0, none⟩ "cid" "T").current_price) ∧
    ((⟨"a", "", "", "", 5, 0, 20, 100, none, 0, some "", "T"⟩ : Holding).value
        = (⟨"a", "", "", "", 5, 0, 20, 100, none, 0, some "", "T"⟩ : Holding).qty
          * (⟨"a", "", "", "", 5, 0, 20, 100, none, 0, some "", "T"⟩ : Holding).current_price) :=
  value_invariant_spec ⟨"S", "N", "tech", 2, 10, 20, none, 0, none⟩ "cid" "T"
    ⟨[(CellVal.str "a", 2)],
     [[], [some (CellVal.str "a"), none, none, none, none, none, some (CellVal.num 20)]]⟩
    "a" { qty := some 5 } "T" ⟨"a", "", "", "", 5, 0, 20, 100, none, 0, some "", "T"⟩
    (by
      unfold updateHolding
      norm_num [alGet, Row.cell, Cell.strOr, parseNumOr0, parseFloatVal,
        CellVal.truthy, mergeHolding, parseHoldingFromRow, Option.some_ne_none,
        Option.isSome])
    (Or.inl (by simp))

theorem strOr_str_empty (s : String) : Cell.strOr (some (.str s)) "" = s := by
  by_cases h : s = "" <;> simp [Cell.strOr, CellVal.truthy, h]

theorem strOr_str (t d : String) (h : ¬ t = "") : Cell.strOr (some (.str t)) d = t := by
  simp [Cell.strOr, CellVal.truthy, h]

theorem parse_serialize (h : Holding) (now' : String)
    (hid : ¬ h.id = "") (hsym : ¬ h.symbol = "") (hname : ¬ h.name = "")
    (hsec : ¬ h.sector = "") (hupd : ¬ h.updated_at = "")
    (hrsi : h.rsi = none ∨ ∃ q, h.rsi = some (some q) ∧ ¬ q = 0)
    (hnotes : ∃ s, h.notes = some s) :
    parseHoldingFromRow (holdingToRowValues h) now' = h := by
  obtain ⟨i, sy, na, se, q0, a0, c0, v0, r0, ap0, no0, u0⟩ := h
  obtain ⟨s, hns⟩ := hnotes
  subst hns
  rcases hrsi with hr | ⟨q, hr, hq⟩
  · subst hr
    simp [parseHoldingFromRow, holdingToRowValues, Row.cell, parseNumOr0,
      parseFloatVal, strOr_str _ _ hid, strOr_str _ _ hsym, strOr_str _ _ hname,
      strOr_str _ _ hsec, strOr_str _ _ hupd, strOr_str_empty,
      Cell.truthy, CellVal.truthy]
  · subst hr
    simp [parseHoldingFromRow, holdingToRowValues, Row.cell, parseNumOr0,
      parseFloatVal, strOr_str _ _ hid, strOr_str _ _ hsym, strOr_str _ _ hname,
      strOr_str _ _ hsec, strOr_str _ _ hupd, strOr_str_empty, hq,
      Cell.truthy, CellVal.truthy]

/-- C9 counterexample: a valid create body with rsi 0 does not round-trip —
the created record stores rsi 0, but the serialised row holds an empty rsi
cell (JS `holding.rsi || ''`), which parses back as absent. -/
theorem roundtrip_counterexample :
    validCreate ⟨"S", "N", "tech", 1, 1, 1, some 0, 0, some ""⟩ ∧
    (addHolding ⟨"S", "N", "tech", 1, 1, 1, some 0, 0, some ""⟩ "id0" "T").rsi
      = some (some 0) ∧
    (parseHoldingFromRow
        (holdingToRowValues
          (addHolding ⟨"S", "N", "tech", 1, 1, 1, some 0, 0, some ""⟩ "id0" "T"))
        "T").rsi = none :=
  ⟨by decide, rfl, by decide⟩

/-- C9 (amended): for every valid create body whose rsi is not 0 and whose
notes field is present, creating the holding (with a nonempty id and
timestamp) and reading it back through the list operation returns exactly
the created record — every field including the server-assigned id and
`updated_at` survives the serialise/parse round trip. -/
theorem roundtrip_spec (b : CreateBody) (id now now' : String) (header : Row)
    (hv : validCreate b) (hid : id ≠ "") (hnow : now ≠ "")
    (hrsi : b.rsi ≠ some 0) (hnotes : b.notes ≠ none) :
    getHoldings [header, holdingToRowValues (addHolding b id now)] now'
      = [addHolding b id now] := by
  obtain ⟨hs1, -, hn1, -, hc1, -, -, -, -, -, -, -, -⟩ := hv
  have hsym : ¬ b.symbol = "" := fun he => by rw [he] at hs1; simp at hs1
  have hname : ¬ b.name = "" := fun he => by rw [he] at hn1; simp at hn1
  have hsec : ¬ b.sector = "" := fun he => by rw [he] at hc1; simp at hc1
  have hfil : ([header, holdingToRowValues (addHolding b id now)].drop 1).filter
      (fun r => (r.cell 0).truthy) = [holdingToRowValues (addHolding b id now)] := by
    have hb : (id == "") = false := beq_eq_false_iff_ne.mpr hid
    simp [List.filter, holdingToRowValues, addHolding, Row.cell,
      Cell.truthy, CellVal.truthy, hb]
  unfold getHoldings
  rw [if_neg (by simp), hfil]
  simp only [List.map_cons, List.map_nil, List.cons.injEq, and_true]
  apply parse_serialize
  · exact hid
  · exact hsym
  · exact hname
  · exact hsec
  · exact hnow
  · cases hbr : b.rsi with
    | none => exact .inl (by simp [addHolding, hbr])
    | some q =>
        exact .inr ⟨q, by simp [addHolding, hbr], fun he => hrsi (by rw [hbr, he])⟩
  · cases hbn : b.notes with
    | none => exact absurd hbn hnotes
    | some s => exact ⟨s, by simp [addHolding, hbn]⟩

/-- Witness for C9: a concrete valid body (rsi absent, notes present) is
returned unchanged by the list operation after creation. -/
theorem roundtrip_witness :
    getHoldings
        [[], holdingToRowValues
          (addHolding ⟨"S", "N", "tech", 1, 1, 2, none, 0, some "hello"⟩ "id0" "T")]
        "T2"
      = [addHolding ⟨"S", "N", "tech", 1, 1, 2, none, 0, some "hello"⟩ "id0" "T"] :=
  roundtrip_spec ⟨"S", "N", "tech", 1, 1, 2, none, 0, some "hello"⟩ "id0" "T" "T2" []
    (by decide) (by decide) (by decide) (by decide) (by decide)

theorem hexDigit_isHex : ∀ n : Fin 16, isHexChar (hexDigit n) = true := by decide

theorem yDigit_isHex : ∀ r : Fin 16, isHexChar (yDigit r) = true := by decide

theorem yDigit_mem : ∀ r : Fin 16, yDigit r ∈ ['8', '9', 'a', 'b'] := by decide

theorem genUUID_eq (rand : Nat → Fin 16) :
    generateUUID rand =
      ⟨[hexDigit (rand 0), hexDigit (rand 1), hexDigit (rand 2), hexDigit (rand 3),
        hexDigit (rand 4), hexDigit (rand 5), hexDigit (rand 6), hexDigit (rand 7),
        '-',
        hexDigit (rand 8), hexDigit (rand 9), hexDigit (rand 10), hexDigit (rand 11),
        '-', '4',
        hexDigit (rand 12), hexDigit (rand 13), hexDigit (rand 14),
        '-',
        yDigit (rand 15),
        hexDigit (rand 16), hexDigit (rand 17), hexDigit (rand 18),
        '-',
        hexDigit (rand 19), hexDigit (rand 20), hexDigit (rand 21), hexDigit (rand 22),
        hexDigit (rand 23), hexDigit (rand 24), hexDigit (rand 25), hexDigit (rand 26),
        hexDigit (rand 27), hexDigit (rand 28), hexDigit (rand 29), hexDigit (rand 30)]⟩ :=
  rfl

/-- C10: whatever the random draws, the generated identifier has the
8-4-4-4-12 hex shape with '4' as the version nibble (position 14) and one
of 8, 9, a, b as the variant nibble (position 19), so it passes the UUID
format validation applied to the id path parameter of the update and delete
routes — no server-created holding is unaddressable because of its id. -/
theorem uuid_generation_spec (rand : Nat → Fin 16) :
    uuidFormatOk (generateUUID rand) = true ∧
    (generateUUID rand).toList.getD 14 ' ' = '4' ∧
    (generateUUID rand).toList.getD 19 ' ' ∈ ['8', '9', 'a', 'b'] := by
  rw [genUUID_eq]
  refine ⟨?_, rfl, ?_⟩
  · simp [uuidFormatOk, uuidCheckFrom, String.toList, hexDigit_isHex, yDigit_isHex]
  · show yDigit (rand 15) ∈ _
    exact yDigit_mem _

end InvTracker
